import Mathlib

/-!
A shallow embedding of the FlatBuffers C++ code generator
(`src/idl_gen_cpp.cpp`), together with theorems checking the
natural-language specification of that generator against the code.

The generator is a single pass over a resolved schema AST (enums,
structs, tables, namespaces) that appends C++ source text to string
accumulators.  Every `code += ...` of the C++ is embedded as an explicit
string append; each emitter function `GenX` takes the accumulator and
returns the new accumulator, and `genXCode` denotes exactly the text the
emitter appends.

The AST types (`idl.h`) and the utility functions `IsScalar`, `IsStruct`,
`SizeOf`, `NumToString`, `SaveFile` and the constant `largest_scalar_t`
live in headers that are not part of the sources; they are modelled from
the specification where so noted.
-/

namespace Flatbuffers

/-- Modelled from the spec: the base-type tags of the schema type system
(`BASE_TYPE_*` in the missing `idl.h`), scalar kinds first, then the
pointer kinds string/vector/struct/union. -/
inductive BaseType where
  | NONE
  | UTYPE
  | BOOL
  | CHAR
  | UCHAR
  | SHORT
  | USHORT
  | INT
  | UINT
  | LONG
  | ULONG
  | FLOAT
  | DOUBLE
  | STRING
  | VECTOR
  | STRUCT
  | UNION
deriving DecidableEq

/-- The `Type` struct of the missing `idl.h`: a base-type tag, the
element tag for vectors (NONE otherwise), and the referenced struct
definition, of which only the name and the `fixed` flag are consulted
by this generator (modelled from the spec's "struct-or-table
reference"). -/
structure FbType where
  base_type : BaseType
  element : BaseType
  struct_name : String
  struct_fixed : Bool
deriving DecidableEq

/-- `Type::VectorType()`: the element type of a vector; its own element
tag is NONE and it keeps the struct reference. -/
def VectorType (t : FbType) : FbType :=
  ⟨t.element, BaseType.NONE, t.struct_name, t.struct_fixed⟩

/-- Modelled from the spec: `IsScalar` of the missing `idl.h` — the
numeric/boolean kinds (UTYPE through DOUBLE) are scalars. -/
def IsScalar (t : BaseType) : Bool :=
  match t with
  | .UTYPE | .BOOL | .CHAR | .UCHAR | .SHORT | .USHORT
  | .INT | .UINT | .LONG | .ULONG | .FLOAT | .DOUBLE => true
  | _ => false

/-- Modelled from the spec: `IsStruct` of the missing `idl.h` — a
struct-reference type whose target is a fixed struct. -/
def IsStruct (t : FbType) : Bool :=
  t.base_type == BaseType.STRUCT && t.struct_fixed

/-- Modelled from the spec: `SizeOf` of the missing `idl.h` — the wire
size in bytes of each base type; the pointer kinds are stored as a
4-byte offset. -/
def SizeOf (t : BaseType) : Nat :=
  match t with
  | .NONE | .UTYPE | .BOOL | .CHAR | .UCHAR => 1
  | .SHORT | .USHORT => 2
  | .INT | .UINT | .FLOAT => 4
  | .LONG | .ULONG | .DOUBLE => 8
  | .STRING | .VECTOR | .STRUCT | .UNION => 4

/-- Modelled from the spec: `sizeof(largest_scalar_t)` — the largest
scalar is 8 bytes wide (the spec's size-sort example tops out at 8). -/
def largest_scalar_size : Nat := 8

/-- Modelled from the spec: the `ctypename` table of `GenTypeBasic`,
mapping each scalar kind to its C++ numeric type name. -/
def ctypename (t : BaseType) : String :=
  match t with
  | .NONE => "uint8_t"
  | .UTYPE => "uint8_t"
  | .BOOL => "uint8_t"
  | .CHAR => "int8_t"
  | .UCHAR => "uint8_t"
  | .SHORT => "int16_t"
  | .USHORT => "uint16_t"
  | .INT => "int32_t"
  | .UINT => "uint32_t"
  | .LONG => "int64_t"
  | .ULONG => "uint64_t"
  | .FLOAT => "float"
  | .DOUBLE => "double"
  | .STRING | .VECTOR | .STRUCT | .UNION => "Offset<void>"

/-- `GenTypeBasic`: a C++ type from the table in idl.h. -/
def GenTypeBasic (t : FbType) : String := ctypename t.base_type

/-- `NumToString` of the missing `util.h`: decimal rendering of a
number (modelled from the spec). -/
def NumToString [ToString α] (x : α) : String := toString x

/-- Measure for the `GenTypePointer`/`GenTypeWire` recursion: a vector
type recurses into its element type, whose own element tag is NONE. -/
def vecDepth (t : FbType) : Nat :=
  (if t.base_type = BaseType.VECTOR then 1 else 0) +
  (if t.element = BaseType.VECTOR then 1 else 0)

mutual

/-- `GenTypePointer`: a C++ pointer type, specialized to the actual
struct/table types, and vector element types. -/
def GenTypePointer (t : FbType) : String :=
  match h : t.base_type with
  | .STRING => "fb_string"
  | .VECTOR => "fb_vector<" ++ GenTypeWire (VectorType t) "" ++ ">"
  | .STRUCT => t.struct_name
  | _ => "void"
termination_by (vecDepth t, 0)
decreasing_by
  simp [vecDepth, VectorType, h]
  split <;> simp [Prod.lex_iff]

/-- `GenTypeWire`: a C++ type for any type (scalar/pointer)
specifically for building a flatbuffer. -/
def GenTypeWire (t : FbType) (postfix_ : String) : String :=
  if IsScalar t.base_type then GenTypeBasic t ++ postfix_
  else if IsStruct t then "const " ++ GenTypePointer t ++ " *"
  else "fb_offset<" ++ GenTypePointer t ++ ">" ++ postfix_
termination_by (vecDepth t, 1)
decreasing_by
  all_goals simp [Prod.lex_iff]

end

/-- `GenTypeGet`: a C++ type for any type (scalar/pointer) specifically
for using a flatbuffer. -/
def GenTypeGet (t : FbType) (afterbasic beforeptr afterptr : String) : String :=
  if IsScalar t.base_type then GenTypeBasic t ++ afterbasic
  else beforeptr ++ GenTypePointer t ++ afterptr

/-- An enum value of the resolved AST: name, integer value, doc comment
(the fields of `EnumVal` this generator reads). -/
structure EnumVal where
  name : String
  value : Int
  doc_comment : String
deriving DecidableEq

/-- An enum definition: name, ordered values, the `generated` skip flag,
and a doc comment. -/
structure EnumDef where
  name : String
  vals : List EnumVal
  generated : Bool
  doc_comment : String
deriving DecidableEq

/-- The `Value` of a field: its type, the default-value literal, and the
offset (the vtable slot number for table fields, the byte offset for
fixed-struct fields). -/
structure Value where
  type : FbType
  constant : String
  offset : Nat
deriving DecidableEq

/-- A field definition: name, value (type/default/offset), the
`deprecated` flag, the padding bit-mask, and a doc comment. -/
structure FieldDef where
  name : String
  value : Value
  deprecated : Bool
  padding : Nat
  doc_comment : String
deriving DecidableEq

/-- A struct or table definition: name, ordered fields, the `fixed`
flag (fixed struct vs. table), `generated` skip flag, `sortbysize`,
alignment, byte size, and a doc comment. -/
structure StructDef where
  name : String
  fields : List FieldDef
  fixed : Bool
  generated : Bool
  sortbysize : Bool
  minalign : Nat
  bytesize : Nat
  doc_comment : String
deriving DecidableEq

/-- The parts of the resolved `Parser` this generator reads: namespace
path, enum definitions, struct/table definitions, and the optional
root type. -/
structure Parser where
  name_space_ : List String
  enums_ : List EnumDef
  structs_ : List StructDef
  root_struct_def : Option StructDef
deriving DecidableEq

/-- The text `GenComment` appends: a doc-comment line when the comment
is non-empty, nothing otherwise. -/
def genCommentCode (dc : String) (pre : String) : String :=
  if dc.length != 0 then pre ++ "///" ++ dc ++ "\n" else ""

/-- `GenComment`: generate a documentation comment, if available,
appended to the accumulator `code`. -/
def GenComment (dc : String) (code : String) (pre : String) : String :=
  code ++ genCommentCode dc pre

/-! ## Enum emitter (`GenEnum`) -/

/-- The sparseness threshold: average distance between values above
which the name table is considered "too sparse". -/
def kMaxSparseness : Int := 5

/-- Stand-in for dereferencing `vals.vec.front()`/`back()` on an empty
vector (undefined behaviour in the C++; every theorem below assumes a
non-empty value list). -/
def defaultEnumVal : EnumVal := ⟨"", 0, ""⟩

/-- `enum_def.vals.vec.front()`. -/
def enumFront (e : EnumDef) : EnumVal := e.vals.headD defaultEnumVal

/-- `enum_def.vals.vec.back()`. -/
def enumBack (e : EnumDef) : EnumVal := e.vals.getLastD defaultEnumVal

/-- `int range = vals.back->value - vals.front->value + 1`. -/
def enumRange (e : EnumDef) : Int :=
  (enumBack e).value - (enumFront e).value + 1

/-- The guard `range / (int)vals.size() < kMaxSparseness` deciding
whether the name-lookup table and function are emitted (C++ `int`
division truncates toward zero, `Int.tdiv`). -/
def enumLookupEmitted (e : EnumDef) : Bool :=
  Int.tdiv (enumRange e) (e.vals.length : Int) < kMaxSparseness

/-- One line of the enum declaration: optional comment, then
`\t<Enum>_<Name> = <value>,`. -/
def enumValLine (ename : String) (ev : EnumVal) : String :=
  genCommentCode ev.doc_comment "  " ++
  "\t" ++ ename ++ "_" ++ ev.name ++ " = " ++ NumToString ev.value ++ ",\n"

/-- The entries of the dense `names[]` array (without the trailing
`nullptr`): the loop `while (val++ != (*it)->value) code += "\"\", ";`
emits one empty-string filler per skipped value, then the value's name;
`val` continues from `value + 1`.  (For values below the running
counter the C++ loop would not terminate; values are assumed
ascending.) -/
def enumNamesEntries : Int → List EnumVal → List String
  | _, [] => []
  | val, ev :: rest =>
    List.replicate (ev.value - val).toNat "" ++
      ev.name :: enumNamesEntries (ev.value + 1) rest

/-- The text of the `names[]` initializer: each entry rendered as
`"<entry>", `. -/
def enumNamesBody (e : EnumDef) : String :=
  String.join ((enumNamesEntries (enumFront e).value e.vals).map
    (fun n => "\"" ++ n ++ "\", "))

/-- The name-lookup table and function section of `GenEnum` (the body
of the `if (range / size < kMaxSparseness)` branch). -/
def genEnumLookupCode (e : EnumDef) : String :=
  "inline const char **EnumNames" ++ e.name ++ "()\n\x7b\n" ++
  "\tstatic const char *names[] = \x7b " ++
  enumNamesBody e ++
  "nullptr\x7d;\n\treturn names;\n\x7d\n\n" ++
  "inline const char *EnumName" ++ e.name ++
  "(int e)\n\x7b\n\treturn EnumNames" ++ e.name ++ "()[e" ++
  (if (enumFront e).value != 0
   then " - " ++ e.name ++ "_" ++ (enumFront e).name else "") ++
  "];\n\x7d\n\n"

/-- The enum declaration itself: comment, `enum {`, one line per value,
`};`. -/
def genEnumDeclCode (e : EnumDef) : String :=
  genCommentCode e.doc_comment "" ++
  "enum\n\x7b\n" ++
  String.join (e.vals.map (enumValLine e.name)) ++
  "\x7d;\n\n"

/-- The full text `GenEnum` appends: nothing for `generated` enums,
else the declaration followed by the lookup section when the
sparseness guard passes. -/
def genEnumCode (e : EnumDef) : String :=
  if e.generated then "" else
  genEnumDeclCode e ++
  (if enumLookupEmitted e then genEnumLookupCode e else "")

/-- `GenEnum`: generate an enum declaration and an enum string lookup
table, appended to the accumulator. -/
def GenEnum (e : EnumDef) (code : String) : String := code ++ genEnumCode e

/-! ## Table emitter (`GenTable`) -/

/-- The fields the accessor/builder/creator loops emit code for: both
accessor and builder loops skip fields with `field.deprecated`. -/
def nondeprecatedFields (s : StructDef) : List FieldDef :=
  s.fields.filter (fun f => !f.deprecated)

/-- One accessor method of the table accessor struct:
`type name() const { return GetField<type>(offset, default); }`
(GetStruct/GetPointer for struct/pointer fields, no default). -/
def tableAccessorMethod (f : FieldDef) : String :=
  genCommentCode f.doc_comment "  " ++
  "\n\t" ++ GenTypeGet f.value.type " " "const " " *" ++
  f.name ++ "() const\n\t\x7b\n\t\treturn " ++
  (if IsScalar f.value.type.base_type then "GetField<"
   else if IsStruct f.value.type then "GetStruct<" else "GetPointer<") ++
  GenTypeGet f.value.type "" "const " " *" ++ ">(" ++
  NumToString f.value.offset ++
  (if IsScalar f.value.type.base_type then ", " ++ f.value.constant else "") ++
  ");\n\t\x7d\n"

/-- One `add_<name>` method of the builder struct:
`void add_name(type name) { fbb_.AddElement<type>(offset, name, default); }`
(AddStruct/AddOffset for struct/pointer fields, no default). -/
def tableBuilderAddMethod (f : FieldDef) : String :=
  "\n\tvoid add_" ++ f.name ++ "(" ++
  GenTypeWire f.value.type " " ++ f.name ++ ")\n\t\x7b\n\t\tfbb_.Add" ++
  (if IsScalar f.value.type.base_type
   then "Element<" ++ GenTypeWire f.value.type "" ++ ">"
   else if IsStruct f.value.type then "Struct" else "Offset") ++
  "(" ++ NumToString f.value.offset ++ ", " ++ f.name ++
  (if IsScalar f.value.type.base_type then ", " ++ f.value.constant else "") ++
  ");\n\t\x7d\n"

/-- The field-slot count the builder's `Finish` passes to `EndTable`:
`struct_def.fields.vec.size()`, i.e. all fields, deprecated included. -/
def finishSlotCount (s : StructDef) : Nat := s.fields.length

/-- The accessor struct section of `GenTable`. -/
def genTableAccessorCode (s : StructDef) : String :=
  genCommentCode s.doc_comment "" ++
  "struct " ++ s.name ++ " : private fb_table" ++ "\n\x7b" ++
  String.join ((nondeprecatedFields s).map tableAccessorMethod) ++
  "\x7d;\n\n"

/-- The builder struct section of `GenTable`, ending with the `Finish`
method that calls `fbb_.EndTable(start_, <finishSlotCount>)`. -/
def genTableBuilderCode (s : StructDef) : String :=
  "struct " ++ s.name ++ "_builder\n\x7b\n\tfb_builder &fbb_;\n" ++
  "\tfb::uoffset_t start_;\n" ++
  String.join ((nondeprecatedFields s).map tableBuilderAddMethod) ++
  "\n\t" ++ s.name ++ "_builder(fb_builder &_fbb) : fbb_(_fbb)" ++
  "\n\t\x7b\n\t\tstart_ = fbb_.StartTable();\n\t\x7d\n" ++
  "\n\tfb_offset<" ++ s.name ++ "> Finish()\n\t\x7b\n\t\treturn fb_offset<" ++
  s.name ++ ">(fbb_.EndTable(start_, " ++
  NumToString (finishSlotCount s) ++ "));\n\t\x7d\n\x7d;\n\n"

/-- The size sequence of the creator's outer loop
`for (size = sortbysize ? sizeof(largest_scalar_t) : 1; size; size /= 2)`. -/
def halvingSizes (size : Nat) : List Nat :=
  if h : size = 0 then [] else size :: halvingSizes (size / 2)
termination_by size
decreasing_by exact Nat.div_lt_self (Nat.pos_of_ne_zero h) (by decide)

/-- The fields, in order, for which the convenience constructor emits a
`builder_.add_<name>` call: the nested loops iterate the sizes and, for
each size, the field vector in reverse (`rbegin()`/`rend()`), keeping
fields that are not deprecated and (under `sortbysize`) whose wire size
equals the current size. -/
def createCallFields (s : StructDef) : List FieldDef :=
  (halvingSizes (if s.sortbysize then largest_scalar_size else 1)).flatMap
    (fun size => s.fields.reverse.filter
      (fun f => !f.deprecated &&
        (!s.sortbysize || size == SizeOf f.value.type.base_type)))

/-- One `builder_.add_<name>(<name>);` call line of the convenience
constructor. -/
def createAddCall (f : FieldDef) : String :=
  "\tbuilder_.add_" ++ f.name ++ "(" ++ f.name ++ ");\n"

/-- The convenience-constructor section of `GenTable`: signature with
one parameter per non-deprecated field in declaration order, builder
construction, the add calls in `createCallFields` order, and the
`Finish` call. -/
def genTableCreateCode (s : StructDef) : String :=
  "inline fb_offset<" ++ s.name ++ "> create_" ++ s.name ++
  "(\n\tfb_builder &_fbb" ++
  String.join ((nondeprecatedFields s).map
    (fun f => ",\n\t" ++ GenTypeWire f.value.type " " ++ f.name)) ++
  ")\n\x7b\n\t" ++ s.name ++ "_builder builder_(_fbb);\n" ++
  String.join ((createCallFields s).map createAddCall) ++
  "\treturn builder_.Finish();\n\x7d\n\n"

/-- The full text `GenTable` appends: nothing for `generated` tables,
else accessor struct, builder struct, and convenience constructor. -/
def genTableCode (s : StructDef) : String :=
  if s.generated then "" else
  genTableAccessorCode s ++ genTableBuilderCode s ++ genTableCreateCode s

/-- `GenTable`: generate an accessor struct, builder structs & function
for a table, appended to the accumulator. -/
def GenTable (s : StructDef) (code : String) : String := code ++ genTableCode s

/-! ## Struct emitter (`GenStruct`) -/

/-- The bit positions of the low 4 bits set in a field's padding mask:
the loop `for (int i = 0; i < 4; i++) if (padding & (1 << i))`. -/
def paddingBits (p : Nat) : List Nat :=
  (List.range 4).filter (fun i => p.testBit i)

/-- One padding storage member: `  int<(1<<i)*8>_t __padding<id>;`. -/
def paddingMemberLine (i pid : Nat) : String :=
  "  int" ++ NumToString ((1 <<< i) * 8) ++ "_t __padding" ++
  NumToString pid ++ ";\n"

/-- The padding members emitted after one field's storage member, one
per set bit, consuming consecutive `padding_id` values from `pid`. -/
def fieldPaddingMembers (p pid : Nat) : String :=
  String.join ((paddingBits p).enum.map
    (fun ki => paddingMemberLine ki.2 (pid + ki.1)))

/-- The C++ `assert(!(field.padding & ~0xF))` placed after the padding
member loop (`~0xF` over the 64-bit `size_t` mask). -/
def paddingAssertHolds (p : Nat) : Bool :=
  p &&& 0xFFFFFFFFFFFFFFF0 == 0

/-- The private storage members of the struct, one per field in
declaration order, each followed by its padding members; `pid` threads
the running `padding_id`. -/
def structMemberLines : List FieldDef → Nat → String
  | [], _ => ""
  | f :: rest, pid =>
    "  " ++ GenTypeGet f.value.type " " "" " " ++ f.name ++ "_;\n" ++
    (if f.padding != 0 then fieldPaddingMembers f.padding pid else "") ++
    structMemberLines rest (pid + (paddingBits f.padding).length)

/-- One constructor parameter: `const type &name` (by value for
scalars). -/
def structCtorArg (f : FieldDef) : String :=
  GenTypeGet f.value.type " " "const " " &" ++ f.name

/-- The constructor initializer parts, one per field: `name_(...)`,
with `fb::EndianScalar` conversion for scalars, followed by
`, __padding<id>(0)` for padded fields; `pid` counts one id per padded
field (as the C++ does on its second pass). -/
def structCtorInitParts : List FieldDef → Nat → List String
  | [], _ => []
  | f :: rest, pid =>
    (f.name ++ "_(" ++
     (if IsScalar f.value.type.base_type
      then "fb::EndianScalar(" ++ f.name ++ "))"
      else f.name ++ ")") ++
     (if f.padding != 0
      then ", __padding" ++ NumToString pid ++ "(0)" else "")) ::
    structCtorInitParts rest (pid + (if f.padding != 0 then 1 else 0))

/-- One struct accessor method: returns the field converted back from
wire order for scalars, the stored value unchanged otherwise. -/
def structAccessorMethod (f : FieldDef) : String :=
  genCommentCode f.doc_comment "  " ++
  "  " ++ GenTypeGet f.value.type " " "const " " &" ++
  f.name ++ "() const\n\x7b\nreturn " ++
  (if IsScalar f.value.type.base_type
   then "fb::EndianScalar(" ++ f.name ++ "_)"
   else f.name ++ "_") ++
  ";\n\t\x7d\n"

/-- The full text `GenStruct` appends: nothing for `generated` structs,
else the manually-aligned record with padded members, the constructor,
the accessors, and the `STRUCT_END` size check. -/
def genStructCode (s : StructDef) : String :=
  if s.generated then "" else
  genCommentCode s.doc_comment "" ++
  "MANUALLY_ALIGNED_STRUCT(" ++ NumToString s.minalign ++ ") " ++
  s.name ++ "\n\x7b\n private:\n" ++
  structMemberLines s.fields 0 ++
  "\n public:\n  " ++ s.name ++ "(" ++
  String.intercalate ", " (s.fields.map structCtorArg) ++
  ")\n    : " ++
  String.intercalate ", " (structCtorInitParts s.fields 0) ++
  "\n\x7b\n\x7d\n\n" ++
  String.join (s.fields.map structAccessorMethod) ++
  "\n\x7d;\nSTRUCT_END(" ++ s.name ++ ", " ++
  NumToString s.bytesize ++ ");\n\n"

/-- `GenStruct`: generate an accessor struct with constructor for a
flatbuffers struct, appended to the accumulator. -/
def GenStruct (s : StructDef) (code : String) : String :=
  code ++ genStructCode s

/-! ## Top-level assembler (`GenerateCPP`) -/

/-- The `enum_code` accumulator: `GenEnum` over every enum definition. -/
def enumCode (p : Parser) : String :=
  p.enums_.foldl (fun code e => GenEnum e code) ""

/-- The `forward_decl_code` accumulator: one forward declaration per
not-yet-`generated` struct/table. -/
def forwardDeclCode (p : Parser) : String :=
  p.structs_.foldl
    (fun code s =>
      if !s.generated then code ++ ("struct " ++ s.name ++ ";\n") else code)
    ""

/-- The `decl_code` accumulator: `GenStruct` over the `fixed`
definitions, then `GenTable` over the non-`fixed` ones. -/
def declCode (p : Parser) : String :=
  p.structs_.foldl
    (fun code s => if !s.fixed then GenTable s code else code)
    (p.structs_.foldl
      (fun code s => if s.fixed then GenStruct s code else code) "")

/-- The fixed preamble: include, runtime-namespace alias, and the
`fb_*` macro substitutions. -/
def cppPreamble : String :=
  "\n" ++
  "#include \"flatbuffers/flatbuffers.h\"\n" ++
  "\nnamespace fb = flatbuffers;\n" ++
  "\n#define fb_offset                 fb::Offset" ++
  "\n#define fb_string                 fb::String" ++
  "\n#define fb_vector                 fb::Vector" ++
  "\n#define fb_table                  fb::Table" ++
  "\n#define fb_builder                fb::FlatBufferBuilder" ++
  "\n#define fb_create_string(b, ...)  (b).CreateString(__VA_ARGS__)" ++
  "\n#define fb_create_vector(b, ...)  (b).CreateVector(__VA_ARGS__)" ++
  "\n#define fb_vector_size(v)         (unsigned)(*(v)).Length()" ++
  "\n#define fb_vector_length(v)       (unsigned)(*(v)).Length()" ++
  "\n#define fb_vector_at(v, i)        (*(v)).Get(i)" ++
  "\n#define fb_get_buf(b)             (b).GetBufferPointer()" ++
  "\n#define fb_get_size(b)            (unsigned)(b).GetSize()" ++
  "\n#define fb_clear(b)               (b).Clear()" ++
  "\n#define fb_finish(b, buf)         (b).Finish(buf)\n"

/-- The namespace-opening lines, one per path segment. -/
def nsOpenCode (p : Parser) : String :=
  String.join (p.name_space_.map
    (fun n => "\nnamespace " ++ n ++ "\n\x7b\n"))

/-- The namespace-closing lines, one per path segment. -/
def nsCloseCode (p : Parser) : String :=
  String.join (p.name_space_.map
    (fun n => "\n\x7d; // namespace " ++ n ++ "\n"))

/-- The root-type entry point:
`inline const T *get_T(const void *buf) { return fb::GetRoot<T>(buf); }`. -/
def rootAccessorCode (rootName : String) : String :=
  "inline const " ++ rootName ++ " *get_" ++ rootName ++
  "(const void *buf)\n\x7b\n\treturn fb::GetRoot<" ++ rootName ++
  ">(buf);\n\x7d\n"

/-- The string-returning `GenerateCPP`: iterate through all definitions
we haven't generated code for and output them to a single unit;
file-level code is produced only if some declaration text was. -/
def GenerateCPP (p : Parser) : String :=
  if (enumCode p).length != 0 || (forwardDeclCode p).length != 0 ||
     (declCode p).length != 0 then
    cppPreamble ++
    nsOpenCode p ++
    "\n" ++ enumCode p ++ forwardDeclCode p ++ "\n" ++ declCode p ++
    (match p.root_struct_def with
     | some r => rootAccessorCode r.name
     | none => "") ++
    nsCloseCode p
  else ""

/-- The include-guard macro `__<FILE>_FLATBUFFERS_H__`, uppercased. -/
def fileNameMacro (file_name : String) : String :=
  ("__" ++ file_name ++ "_FLATBUFFERS_H__").toUpper

/-- The full file contents the boolean `GenerateCPP` overload writes:
header line, include guard, the assembled unit, `#endif`, trailer. -/
def wrapperCode (p : Parser) (file_name : String) : String :=
  "// automatically generated, do not modify\n\n" ++
  "#ifndef " ++ fileNameMacro file_name ++ "\n" ++
  "#define " ++ fileNameMacro file_name ++ "\n\n" ++
  GenerateCPP p ++
  "\n#endif\n" ++
  "\n// the end of the header file " ++ file_name ++ ".fb.h\n\n"

/-- The boolean `GenerateCPP` overload:
`return !code.length() || SaveFile(path + file_name + ".fb.h", code)`.
`SaveFile` (from the missing `util.h`) is modelled from the spec as a
boolean-valued oracle of the destination and contents, true on
success. -/
def GenerateCPPFile (p : Parser) (path file_name : String)
    (saveFile : String → String → Bool) : Bool :=
  let code := wrapperCode p file_name
  code.length == 0 || saveFile (path ++ file_name ++ ".fb.h") code

/-! ## Helper lemmas about string accumulation -/

theorem str_foldl_append : ∀ (l : List String) (a : String),
    l.foldl (fun r s => r ++ s) a = a ++ l.foldl (fun r s => r ++ s) ""
  | [], a => by simp [List.foldl, String.append_empty]
  | s :: l, a => by
    simp only [List.foldl]
    rw [str_foldl_append l (a ++ s), str_foldl_append l ("" ++ s),
      String.empty_append, String.append_assoc]

theorem str_join_cons (s : String) (l : List String) :
    String.join (s :: l) = s ++ String.join l := by
  unfold String.join
  simp only [List.foldl]
  rw [str_foldl_append l ("" ++ s), String.empty_append]

theorem str_join_nil : String.join ([] : List String) = "" := rfl

theorem foldl_emit {α : Type} (g : α → String) (h : String → α → String)
    (hh : ∀ c a, h c a = c ++ g a) :
    ∀ (l : List α) (code : String),
      l.foldl h code = code ++ String.join (l.map g)
  | [], code => by simp [List.foldl, str_join_nil, String.append_empty]
  | a :: l, code => by
    simp only [List.foldl, List.map]
    rw [hh, foldl_emit g h hh l (code ++ g a), str_join_cons,
      String.append_assoc]

theorem join_map_empty {α : Type} (g : α → String) :
    ∀ (l : List α), (∀ a ∈ l, g a = "") → String.join (l.map g) = ""
  | [], _ => rfl
  | a :: l, h => by
    simp only [List.map]
    rw [str_join_cons, h a (by simp), join_map_empty g l
      (fun b hb => h b (by simp [hb])), String.empty_append]

theorem str_eq_empty_of_length (s : String) (h : s.length = 0) : s = "" := by
  cases s with
  | mk data =>
    cases data with
    | nil => rfl
    | cons c cs => simp [String.length] at h

theorem str_length_ne_zero (s : String) (h : s ≠ "") : s.length ≠ 0 :=
  fun hl => h (str_eq_empty_of_length s hl)

/-! ## Claim C6: empty output exactly when no declaration text -/

set_option maxRecDepth 8192 in
/-- C6: the string-returning `GenerateCPP` returns the empty string
exactly when the enum text, the forward-declaration text, and the
struct/table declaration text are all empty; in that case no preamble,
namespace wrappers, or root accessor are produced, so an empty schema
yields no file content. -/
theorem generate_empty_iff (p : Parser) :
    GenerateCPP p = "" ↔
      enumCode p = "" ∧ forwardDeclCode p = "" ∧ declCode p = "" := by
  by_cases hc : ((enumCode p).length != 0 || (forwardDeclCode p).length != 0 ||
      (declCode p).length != 0) = true
  · rw [GenerateCPP, if_pos hc]
    constructor
    · intro h
      exfalso
      have hlen := congrArg String.length h
      have hpre : cppPreamble.length ≠ 0 := by decide
      have h0 : ("" : String).length = 0 := rfl
      simp only [String.length_append, h0] at hlen
      omega
    · rintro ⟨h1, h2, h3⟩
      rw [h1, h2, h3] at hc
      simp at hc
  · rw [GenerateCPP, if_neg hc]
    have h1 : enumCode p = "" := by
      by_contra hx
      exact hc (by simp [bne_iff_ne, str_length_ne_zero _ hx])
    have h2 : forwardDeclCode p = "" := by
      by_contra hx
      exact hc (by simp [bne_iff_ne, str_length_ne_zero _ hx])
    have h3 : declCode p = "" := by
      by_contra hx
      exact hc (by simp [bne_iff_ne, str_length_ne_zero _ hx])
    simp [h1, h2, h3]

/-! ## Claim C7: the persistence wrapper -/

/-- C7: the boolean `GenerateCPP` overload returns exactly the result
of the single file write (false exactly on write failure — the guarded
wrapper text is never empty, so the write always happens), and when the
generated content is empty the written text is still the minimal
guarded shell. -/
theorem wrapper_write_result (p : Parser) (path file_name : String)
    (saveFile : String → String → Bool) :
    GenerateCPPFile p path file_name saveFile
      = saveFile (path ++ file_name ++ ".fb.h") (wrapperCode p file_name)
  ∧ (GenerateCPP p = "" →
      wrapperCode p file_name =
        "// automatically generated, do not modify\n\n" ++
        "#ifndef " ++ fileNameMacro file_name ++ "\n" ++
        "#define " ++ fileNameMacro file_name ++ "\n\n" ++
        "\n#endif\n" ++
        "\n// the end of the header file " ++ file_name ++ ".fb.h\n\n") := by
  constructor
  · have hne : (wrapperCode p file_name).length ≠ 0 := by
      simp only [wrapperCode, String.length_append]
      have : ("// automatically generated, do not modify\n\n").length ≠ 0 := by
        decide
      omega
    have hb : ((wrapperCode p file_name).length == 0) = false := by
      simpa using hne
    simp only [GenerateCPPFile, hb, Bool.false_or]
  · intro h
    simp only [wrapperCode, h, String.append_empty]

/-! ## Claim C10: emitters only append to the accumulator -/

/-- C10: every emitter call leaves the pre-call accumulator contents as
an unchanged prefix — each of `GenComment`, `GenEnum`, `GenTable`,
`GenStruct` returns the old accumulator with some text appended (and,
the embedding being pure, reads but never modifies the definition
passed in). -/
theorem emitters_append_only :
    (∀ dc code pre, ∃ t, GenComment dc code pre = code ++ t)
  ∧ (∀ e code, ∃ t, GenEnum e code = code ++ t)
  ∧ (∀ s code, ∃ t, GenTable s code = code ++ t)
  ∧ (∀ s code, ∃ t, GenStruct s code = code ++ t) :=
  ⟨fun dc _ pre => ⟨genCommentCode dc pre, rfl⟩,
   fun e _ => ⟨genEnumCode e, rfl⟩,
   fun s _ => ⟨genTableCode s, rfl⟩,
   fun s _ => ⟨genStructCode s, rfl⟩⟩

/-! ## Claim C8: `generated` definitions contribute nothing -/

/-- A parser extended with extra definitions (the "superset" run). -/
def appendDefs (p : Parser) (es : List EnumDef) (ss : List StructDef) :
    Parser :=
  ⟨p.name_space_, p.enums_ ++ es, p.structs_ ++ ss, p.root_struct_def⟩

theorem foldl_id {α : Type} (f : String → α → String) :
    ∀ (l : List α), (∀ c a, a ∈ l → f c a = c) → ∀ c, l.foldl f c = c
  | [], _, _ => rfl
  | a :: l, h, c => by
    simp only [List.foldl]
    rw [h c a (by simp), foldl_id f l (fun c b hb => h c b (by simp [hb])) c]

/-- C8: definitions whose `generated` flag is set contribute no output
text — `GenEnum`, `GenTable` and `GenStruct` append nothing for them
and no forward declaration is emitted — so generating over a superset
that adds already-generated definitions yields identical output. -/
theorem generated_idempotent (p : Parser) (es : List EnumDef)
    (ss : List StructDef)
    (hE : ∀ e ∈ es, e.generated = true) (hS : ∀ s ∈ ss, s.generated = true) :
    (∀ e ∈ es, genEnumCode e = "")
  ∧ (∀ s ∈ ss, genTableCode s = "" ∧ genStructCode s = "")
  ∧ GenerateCPP (appendDefs p es ss) = GenerateCPP p := by
  have hEc : ∀ e ∈ es, genEnumCode e = "" := fun e he => by
    simp [genEnumCode, hE e he]
  have hSc : ∀ s ∈ ss, genTableCode s = "" ∧ genStructCode s = "" :=
    fun s hs => ⟨by simp [genTableCode, hS s hs], by simp [genStructCode, hS s hs]⟩
  refine ⟨hEc, hSc, ?_⟩
  have hEnum : enumCode (appendDefs p es ss) = enumCode p := by
    show (p.enums_ ++ es).foldl (fun code e => GenEnum e code) "" = _
    rw [List.foldl_append]
    exact foldl_id _ es
      (fun c e he => by
        show c ++ genEnumCode e = c
        rw [hEc e he, String.append_empty]) _
  have hFwd : forwardDeclCode (appendDefs p es ss) = forwardDeclCode p := by
    show (p.structs_ ++ ss).foldl _ "" = _
    rw [List.foldl_append]
    exact foldl_id _ ss
      (fun c s hs => by simp [hS s hs]) _
  have hInner : ∀ c : String,
      ss.foldl (fun code s => if s.fixed then GenStruct s code else code) c
        = c :=
    foldl_id _ ss (fun c s hs => by
      by_cases hx : s.fixed = true <;>
        simp [hx, GenStruct, (hSc s hs).2, String.append_empty])
  have hOuter : ∀ c : String,
      ss.foldl (fun code s => if !s.fixed then GenTable s code else code) c
        = c :=
    foldl_id _ ss (fun c s hs => by
      by_cases hx : s.fixed = true <;>
        simp [hx, GenTable, (hSc s hs).1, String.append_empty])
  have hDecl : declCode (appendDefs p es ss) = declCode p := by
    show (p.structs_ ++ ss).foldl _ ((p.structs_ ++ ss).foldl _ "") = _
    rw [List.foldl_append, List.foldl_append, hInner, hOuter]
    rfl
  have hNs : (appendDefs p es ss).name_space_ = p.name_space_ := rfl
  have hRoot : (appendDefs p es ss).root_struct_def = p.root_struct_def := rfl
  simp only [GenerateCPP, hEnum, hFwd, hDecl, nsOpenCode, nsCloseCode, hNs,
    hRoot]

/-! ## Claim C5: the root-type entry point -/

/-- A table definition already generated elsewhere. -/
def MonGenerated : StructDef := ⟨"Mon", [], false, true, false, 1, 0, ""⟩

/-- A parser whose root type is the already-generated table: every
emitter is skipped, so the assembled output is empty. -/
def pAllGenerated : Parser := ⟨[], [], [MonGenerated], some MonGenerated⟩

/-- C5 counterexample: a parser can have a designated root type and yet
the output contains no `get_<RootName>` accessor — when every
definition is already `generated`, the assembled output is suppressed
entirely, root type notwithstanding. -/
theorem root_accessor_counterexample :
    pAllGenerated.root_struct_def.isSome = true
  ∧ GenerateCPP pAllGenerated = ""
  ∧ ¬ ∃ a b, GenerateCPP pAllGenerated = a ++ rootAccessorCode "Mon" ++ b := by
  have hEmpty : GenerateCPP pAllGenerated = "" := by decide
  refine ⟨rfl, hEmpty, ?_⟩
  rintro ⟨a, b, hab⟩
  rw [hEmpty] at hab
  have hlen := congrArg String.length hab
  have hr : (rootAccessorCode "Mon").length ≠ 0 := by decide
  have h0 : ("" : String).length = 0 := rfl
  simp only [String.length_append, h0] at hlen
  omega

/-- C5 (amended): whenever the parser has a designated root type and
some declaration text was produced (so the assembled unit is not
suppressed), the output contains the entry-point accessor
`get_<RootName>` taking a raw `const void *` buffer and returning it
via `GetRoot`. -/
theorem root_accessor_present (p : Parser) (r : StructDef)
    (hroot : p.root_struct_def = some r)
    (hne : enumCode p ≠ "" ∨ forwardDeclCode p ≠ "" ∨ declCode p ≠ "") :
    ∃ a b, GenerateCPP p = a ++ rootAccessorCode r.name ++ b := by
  refine ⟨cppPreamble ++ nsOpenCode p ++ "\n" ++ enumCode p ++
    forwardDeclCode p ++ "\n" ++ declCode p, nsCloseCode p, ?_⟩
  have hc : ((enumCode p).length != 0 || (forwardDeclCode p).length != 0 ||
      (declCode p).length != 0) = true := by
    rcases hne with h | h | h <;> simp [str_length_ne_zero _ h]
  rw [GenerateCPP, if_pos hc, hroot]

/-- A not-yet-generated table named Mon. -/
def MonTable : StructDef := ⟨"Mon", [], false, false, false, 1, 0, ""⟩

/-- A parser with a root type and a non-generated definition. -/
def pWithRoot : Parser := ⟨[], [], [MonTable], some MonTable⟩

/-- C5 witness: on a concrete parser with a root type and non-empty
declaration text, the accessor is present. -/
theorem root_accessor_present_witness :
    ∃ a b, GenerateCPP pWithRoot = a ++ rootAccessorCode "Mon" ++ b :=
  root_accessor_present pWithRoot MonTable rfl
    (Or.inr (Or.inl (by decide)))

/-- An already-generated enum. -/
def ColorGenerated : EnumDef := ⟨"Color", [], true, ""⟩

/-- C8 witness: adding a concrete generated enum and a concrete
generated table to a concrete parser leaves the output unchanged. -/
theorem generated_idempotent_witness :
    genEnumCode ColorGenerated = ""
  ∧ GenerateCPP (appendDefs pWithRoot [ColorGenerated] [MonGenerated])
      = GenerateCPP pWithRoot := by
  have h := generated_idempotent pWithRoot [ColorGenerated] [MonGenerated]
    (by decide) (by decide)
  exact ⟨h.1 ColorGenerated (by simp), h.2.2⟩

/-- An empty parser: no namespaces, enums, structs, or root type. -/
def pEmpty : Parser := ⟨[], [], [], none⟩

/-- C7 witness: on the empty parser (empty generated content) with an
always-failing write, the wrapper returns false, and the wrapped text
is the minimal guarded shell. -/
theorem wrapper_write_result_witness :
    GenerateCPPFile pEmpty "out/" "schema" (fun _ _ => false) = false
  ∧ wrapperCode pEmpty "schema" =
      "// automatically generated, do not modify\n\n" ++
      "#ifndef " ++ fileNameMacro "schema" ++ "\n" ++
      "#define " ++ fileNameMacro "schema" ++ "\n\n" ++
      "\n#endif\n" ++
      "\n// the end of the header file " ++ "schema" ++ ".fb.h\n\n" := by
  constructor
  · rw [(wrapper_write_result pEmpty "out/" "schema" (fun _ _ => false)).1]
  · exact (wrapper_write_result pEmpty "out/" "schema" (fun _ _ => false)).2 rfl

/-! ## Sorted-list helpers for the enum claims -/

theorem getLastD_mem_cons : ∀ (l : List EnumVal) (d : EnumVal),
    l.getLastD d ∈ d :: l
  | [], _ => by simp
  | b :: t, d => by
    rw [List.getLastD_cons]
    have := getLastD_mem_cons t b
    simp at this ⊢
    tauto

theorem getLastD_mem (l : List EnumVal) (d : EnumVal) (h : l ≠ []) :
    l.getLastD d ∈ l := by
  cases l with
  | nil => exact absurd rfl h
  | cons b t =>
    rw [List.getLastD_cons]
    exact getLastD_mem_cons t b

theorem headD_le_of_sorted (l : List EnumVal)
    (h : l.Pairwise (fun a b => a.value ≤ b.value)) :
    ∀ ev ∈ l, (l.headD defaultEnumVal).value ≤ ev.value := by
  cases l with
  | nil => simp
  | cons a t =>
    intro ev hev
    rcases List.mem_cons.mp hev with rfl | h'
    · simp
    · exact (List.pairwise_cons.mp h).1 ev h'

theorem le_getLastD_of_sorted :
    ∀ (l : List EnumVal) (d : EnumVal),
      l.Pairwise (fun a b => a.value ≤ b.value) →
      ∀ ev ∈ l, ev.value ≤ (l.getLastD d).value
  | [], _, _, ev, hev => by simp at hev
  | a :: t, d, h, ev, hev => by
    rw [List.getLastD_cons]
    rcases List.mem_cons.mp hev with rfl | h'
    · rcases List.mem_cons.mp (getLastD_mem_cons t ev) with hb | hb
      · rw [hb]
      · exact (List.pairwise_cons.mp h).1 _ hb
    · exact le_getLastD_of_sorted t a (List.pairwise_cons.mp h).2 ev h'

/-! ## Claim C3: the sparseness threshold -/

/-- C3: for a non-generated enum (with its values sorted ascending, the
documented input invariant), the name-lookup table and function are
emitted iff `(max - min + 1) / count < 5`; the emitted/omitted text is
exactly the lookup section. -/
theorem enum_lookup_threshold (e : EnumDef) (hgen : e.generated = false)
    (hne : e.vals ≠ [])
    (hsorted : e.vals.Pairwise (fun a b => a.value ≤ b.value)) :
    (∀ ev ∈ e.vals,
       (enumFront e).value ≤ ev.value ∧ ev.value ≤ (enumBack e).value)
  ∧ (enumLookupEmitted e = true ↔ enumRange e < 5 * (e.vals.length : Int))
  ∧ (enumLookupEmitted e = true →
       genEnumCode e = genEnumDeclCode e ++ genEnumLookupCode e)
  ∧ (enumLookupEmitted e = false → genEnumCode e = genEnumDeclCode e) := by
  have hbounds : ∀ ev ∈ e.vals,
      (enumFront e).value ≤ ev.value ∧ ev.value ≤ (enumBack e).value :=
    fun ev hev =>
      ⟨headD_le_of_sorted e.vals hsorted ev hev,
       le_getLastD_of_sorted e.vals defaultEnumVal hsorted ev hev⟩
  refine ⟨hbounds, ?_, ?_, ?_⟩
  · have hfb : (enumFront e).value ≤ (enumBack e).value :=
      (hbounds _ (getLastD_mem e.vals defaultEnumVal hne)).1
    have hrange : 0 < enumRange e := by
      unfold enumRange
      omega
    have hlen : 0 < (e.vals.length : Int) := by
      have := List.length_pos.mpr hne
      omega
    unfold enumLookupEmitted kMaxSparseness
    rw [decide_eq_true_iff]
    rw [Int.tdiv_eq_ediv (by omega) (by omega)]
    rw [Int.ediv_lt_iff_lt_mul hlen]
  · intro h
    simp [genEnumCode, hgen, h]
  · intro h
    simp [genEnumCode, hgen, h, String.append_empty]

/-- A dense enum: Red/Green/Blue = 0/1/2 (sparseness 1). -/
def ColorEnum : EnumDef :=
  ⟨"Color", [⟨"Red", 0, ""⟩, ⟨"Green", 1, ""⟩, ⟨"Blue", 2, ""⟩], false, ""⟩

/-- A sparse enum: values 0 and 10 (range 11, count 2, ratio ≥ 5). -/
def SparseEnum : EnumDef :=
  ⟨"Sparse", [⟨"A", 0, ""⟩, ⟨"B", 10, ""⟩], false, ""⟩

/-- C3 witness: the dense enum gets the lookup section, the sparse one
does not. -/
theorem enum_lookup_threshold_witness :
    genEnumCode ColorEnum = genEnumDeclCode ColorEnum ++ genEnumLookupCode ColorEnum
  ∧ genEnumCode SparseEnum = genEnumDeclCode SparseEnum :=
  ⟨(enum_lookup_threshold ColorEnum rfl (by decide) (by decide)).2.2.1
     (by decide),
   (enum_lookup_threshold SparseEnum rfl (by decide) (by decide)).2.2.2
     (by decide)⟩

/-! ## Claim C4: the dense names array and lookup semantics -/

/-- The value the emitted `EnumName<X>(int e)` function denotes: it
indexes the array built by the emitted `EnumNames<X>()` at position
`e - <min value>` (the subtraction is emitted only for a non-zero
minimum; for a zero minimum indexing by `e` is the same position). -/
def emittedEnumName (e : EnumDef) (v : Int) : Option String :=
  (enumNamesEntries (enumFront e).value e.vals)[(v - (enumFront e).value).toNat]?

theorem entries_declared :
    ∀ (vals : List EnumVal) (val : Int),
      vals.Pairwise (fun a b => a.value < b.value) →
      (∀ ev ∈ vals, val ≤ ev.value) →
      ∀ ev ∈ vals,
        (enumNamesEntries val vals)[(ev.value - val).toNat]? = some ev.name
  | [], _, _, _, ev, hev => by simp at hev
  | a :: t, val, hpw, hle, ev, hev => by
    have hva : val ≤ a.value := hle a (by simp)
    simp only [enumNamesEntries]
    rcases List.mem_cons.mp hev with rfl | hevt
    · rw [List.getElem?_append_right (by simp)]
      simp
    · have hlt : a.value < ev.value := (List.pairwise_cons.mp hpw).1 ev hevt
      have hix : (ev.value - val).toNat =
          (List.replicate (a.value - val).toNat "").length +
            ((ev.value - (a.value + 1)).toNat + 1) := by
        simp only [List.length_replicate]
        omega
      rw [hix, List.getElem?_append_right (by omega), Nat.add_sub_cancel_left,
        List.getElem?_cons_succ]
      exact entries_declared t (a.value + 1) (List.pairwise_cons.mp hpw).2
        (fun ev' h' => by
          have := (List.pairwise_cons.mp hpw).1 ev' h'
          omega)
        ev hevt

theorem entries_gap :
    ∀ (vals : List EnumVal) (val : Int),
      vals.Pairwise (fun a b => a.value < b.value) →
      (∀ ev ∈ vals, val ≤ ev.value) →
      ∀ v : Int, val ≤ v →
      (∃ ev ∈ vals, v ≤ ev.value) →
      (∀ ev ∈ vals, ev.value ≠ v) →
      (enumNamesEntries val vals)[(v - val).toNat]? = some ""
  | [], _, _, _, v, _, hbound, _ => by
    obtain ⟨ev, hev, _⟩ := hbound
    simp at hev
  | a :: t, val, hpw, hle, v, hvv, hbound, hnot => by
    have hva : val ≤ a.value := hle a (by simp)
    have hvne : a.value ≠ v := hnot a (by simp)
    simp only [enumNamesEntries]
    rcases lt_or_gt_of_ne hvne with hgt | hlt
    · -- a.value > v is impossible or v lies in the replicate prefix
      -- here hgt : a.value < v, so v is past the head entry
      obtain ⟨ev, hev, hevv⟩ := hbound
      have hevt : ev ∈ t := by
        rcases List.mem_cons.mp hev with rfl | h'
        · omega
        · exact h'
      have hix : (v - val).toNat =
          (List.replicate (a.value - val).toNat "").length +
            ((v - (a.value + 1)).toNat + 1) := by
        simp only [List.length_replicate]
        omega
      rw [hix, List.getElem?_append_right (by omega), Nat.add_sub_cancel_left,
        List.getElem?_cons_succ]
      exact entries_gap t (a.value + 1) (List.pairwise_cons.mp hpw).2
        (fun ev' h' => by
          have := (List.pairwise_cons.mp hpw).1 ev' h'
          omega)
        v (by omega) ⟨ev, hevt, hevv⟩
        (fun ev' h' => hnot ev' (by simp [h']))
    · -- hlt : v < a.value, so v indexes into the empty-string fillers
      have hix : (v - val).toNat < (List.replicate (a.value - val).toNat "").length := by
        simp only [List.length_replicate]
        omega
      rw [List.getElem?_append, if_pos hix]
      simp only [List.length_replicate] at hix
      simp [List.getElem?_replicate, hix]

/-- C4: for an enum with ascending values (and at least one value),
the emitted lookup, which indexes the dense names array at
`v - min`, yields exactly the declared name for every declared value,
and the empty string at every gap position within `[min, max]`. -/
theorem enum_lookup_names (e : EnumDef) (hne : e.vals ≠ [])
    (hasc : e.vals.Pairwise (fun a b => a.value < b.value)) :
    (∀ ev ∈ e.vals, emittedEnumName e ev.value = some ev.name)
  ∧ (∀ v : Int, (enumFront e).value ≤ v → v ≤ (enumBack e).value →
      (∀ ev ∈ e.vals, ev.value ≠ v) → emittedEnumName e v = some "") := by
  have hle : ∀ ev ∈ e.vals, (enumFront e).value ≤ ev.value :=
    headD_le_of_sorted e.vals (hasc.imp le_of_lt)
  constructor
  · intro ev hev
    exact entries_declared e.vals (enumFront e).value hasc hle ev hev
  · intro v hlo hhi hnot
    exact entries_gap e.vals (enumFront e).value hasc hle v hlo
      ⟨enumBack e, getLastD_mem e.vals defaultEnumVal hne, hhi⟩ hnot

/-- A non-contiguous but dense-enough enum: A=1, B=2, D=4. -/
def GapEnum : EnumDef :=
  ⟨"Gap", [⟨"A", 1, ""⟩, ⟨"B", 2, ""⟩, ⟨"D", 4, ""⟩], false, ""⟩

/-- C4 witness: on the concrete gap enum the lookup yields the declared
names at declared values and the empty string at the gap. -/
theorem enum_lookup_names_witness :
    emittedEnumName GapEnum 4 = some "D"
  ∧ emittedEnumName GapEnum 3 = some "" :=
  ⟨(enum_lookup_names GapEnum (by decide) (by decide)).1 ⟨"D", 4, ""⟩
     (by simp [GapEnum]),
   (enum_lookup_names GapEnum (by decide) (by decide)).2 3 (by decide)
     (by decide) (by decide)⟩

/-! ## Claim C2: deprecated fields and slot numbers -/

/-- A field with its `deprecated` flag set and everything else (name,
type, slot number, padding, comment) unchanged. -/
def setDeprecated (f : FieldDef) : FieldDef :=
  ⟨f.name, f.value, true, f.padding, f.doc_comment⟩

/-- C2: deprecated fields get no accessor and no builder add method
(both method lists range over `nondeprecatedFields`); the builder's
`Finish` passes the total field count, deprecated slots included, to
`EndTable`; and deprecating any subset of fields leaves every field's
slot number — and the emitted accessor/add text of every remaining
field — unchanged. -/
theorem deprecated_field_emission (s s' : StructDef)
    (hf : List.Forall₂ (fun f f' => f' = f ∨ f' = setDeprecated f)
      s.fields s'.fields) :
    (∀ f ∈ s'.fields, f.deprecated = true → f ∉ nondeprecatedFields s')
  ∧ genTableAccessorCode s' =
      genCommentCode s'.doc_comment "" ++
      "struct " ++ s'.name ++ " : private fb_table" ++ "\n\x7b" ++
      String.join ((nondeprecatedFields s').map tableAccessorMethod) ++
      "\x7d;\n\n"
  ∧ finishSlotCount s' = s.fields.length
  ∧ List.Forall₂ (fun f f' =>
      f'.value.offset = f.value.offset ∧
      (f'.deprecated = false →
        tableAccessorMethod f' = tableAccessorMethod f ∧
        tableBuilderAddMethod f' = tableBuilderAddMethod f))
      s.fields s'.fields := by
  refine ⟨?_, ?_, ?_, ?_⟩
  · intro f _ hdep hmem
    have := List.of_mem_filter hmem
    simp [hdep] at this
  · simp [genTableAccessorCode, String.append_assoc]
  · show s'.fields.length = s.fields.length
    exact (List.Forall₂.length_eq hf).symm
  · refine hf.imp ?_
    rintro f f' (rfl | rfl)
    · exact ⟨rfl, fun _ => ⟨rfl, rfl⟩⟩
    · exact ⟨rfl, fun h => by simp [setDeprecated] at h⟩

/-- A table with two fields. -/
def PairTable : StructDef :=
  ⟨"Pair",
   [⟨"a", ⟨⟨BaseType.SHORT, BaseType.NONE, "", false⟩, "0", 4⟩, false, 0, ""⟩,
    ⟨"b", ⟨⟨BaseType.INT, BaseType.NONE, "", false⟩, "0", 6⟩, false, 0, ""⟩],
   false, false, false, 1, 0, ""⟩

/-- `PairTable` with its first field deprecated. -/
def PairTableDep : StructDef :=
  ⟨"Pair",
   [⟨"a", ⟨⟨BaseType.SHORT, BaseType.NONE, "", false⟩, "0", 4⟩, true, 0, ""⟩,
    ⟨"b", ⟨⟨BaseType.INT, BaseType.NONE, "", false⟩, "0", 6⟩, false, 0, ""⟩],
   false, false, false, 1, 0, ""⟩

/-- C2 witness: deprecating the first field of the concrete two-field
table keeps the `Finish` slot count at 2 and keeps the second field's
slot number 6; the deprecated field is absent from the emitted method
lists. -/
theorem deprecated_field_emission_witness :
    finishSlotCount PairTableDep = PairTable.fields.length
  ∧ nondeprecatedFields PairTableDep =
      [⟨"b", ⟨⟨BaseType.INT, BaseType.NONE, "", false⟩, "0", 6⟩, false, 0, ""⟩] := by
  have hf : List.Forall₂ (fun f f' => f' = f ∨ f' = setDeprecated f)
      PairTable.fields PairTableDep.fields :=
    List.Forall₂.cons (Or.inr (by decide))
      (List.Forall₂.cons (Or.inl rfl) List.Forall₂.nil)
  exact ⟨(deprecated_field_emission PairTable PairTableDep hf).2.2.1,
    by decide⟩

/-! ## Claim C9: struct padding members and the padding assertion -/

/-- C9: for a fixed struct all of whose padding masks fit in the low 4
bits, the `assert(!(padding & ~0xF))` in the struct emitter holds for
every field, and the padding members emitted after a padded field's
storage member are exactly one `int(2^i * 8)_t` member — 2^i bytes —
per set bit `i` of the mask, bits 0 through 3. -/
theorem struct_padding_members (s : StructDef)
    (hfit : ∀ f ∈ s.fields, f.padding < 16) :
    (∀ f ∈ s.fields, paddingAssertHolds f.padding = true)
  ∧ (∀ f ∈ s.fields, ∀ pid,
      fieldPaddingMembers f.padding pid =
        String.join ((paddingBits f.padding).enum.map
          (fun ki => "  int" ++ NumToString (2 ^ ki.2 * 8) ++
            "_t __padding" ++ NumToString (pid + ki.1) ++ ";\n")))
  ∧ (∀ f ∈ s.fields, ∀ i, i ∈ paddingBits f.padding ↔
      i < 4 ∧ f.padding.testBit i) := by
  refine ⟨?_, ?_, ?_⟩
  · intro f hmem
    have hp := hfit f hmem
    unfold paddingAssertHolds
    interval_cases h : f.padding <;> decide
  · intro f _ pid
    unfold fieldPaddingMembers paddingMemberLine
    congr 1
    apply List.map_congr_left
    intro ki _
    rw [Nat.one_shiftLeft]
  · intro f _ i
    simp [paddingBits, List.mem_filter, List.mem_range]

/-- A fixed struct: a byte field padded to 4 bytes (mask 0b11: one
1-byte and one 2-byte unit) followed by an int field. -/
def VecStruct : StructDef :=
  ⟨"Vec",
   [⟨"x", ⟨⟨BaseType.CHAR, BaseType.NONE, "", false⟩, "0", 0⟩, false, 3, ""⟩,
    ⟨"y", ⟨⟨BaseType.INT, BaseType.NONE, "", false⟩, "0", 4⟩, false, 0, ""⟩],
   true, false, false, 4, 8, ""⟩

/-- C9 witness: on the concrete struct the assertion holds and the
mask 3 yields an 8-bit and then a 16-bit padding member. -/
theorem struct_padding_members_witness :
    paddingAssertHolds 3 = true
  ∧ fieldPaddingMembers 3 0 =
      "  int8_t __padding0;\n" ++ "  int16_t __padding1;\n" := by
  have h := struct_padding_members VecStruct (by decide)
  refine ⟨h.1 ⟨"x", ⟨⟨BaseType.CHAR, BaseType.NONE, "", false⟩, "0", 0⟩,
    false, 3, ""⟩ (by simp [VecStruct]), by decide⟩

/-! ## Claim C1: the convenience constructor's add-call order -/

theorem halvingSizes_one : halvingSizes 1 = [1] := by
  simp [halvingSizes]

theorem halvingSizes_eight : halvingSizes 8 = [8, 4, 2, 1] := by
  simp [halvingSizes]

theorem beq_comm_nat (x y : Nat) : (x == y) = (y == x) := by
  by_cases h : x = y
  · simp [h]
  · simp [h, Ne.symm h]

theorem SizeOf_mem_sizes (b : BaseType) : SizeOf b ∈ ([8, 4, 2, 1] : List Nat) := by
  cases b <;> decide

theorem flatMap_congr_mem {α β : Type} :
    ∀ (ks : List α) (f g : α → List β), (∀ k ∈ ks, f k = g k) →
      ks.flatMap f = ks.flatMap g
  | [], _, _, _ => rfl
  | k :: ks, f, g, h => by
    simp only [List.flatMap_cons]
    rw [h k (by simp), flatMap_congr_mem ks f g (fun k' h' => h k' (by simp [h']))]

theorem flatMap_perm_of_perm {α β : Type} :
    ∀ (ks : List α) (f g : α → List β), (∀ k ∈ ks, (f k).Perm (g k)) →
      (ks.flatMap f).Perm (ks.flatMap g)
  | [], _, _, _ => List.Perm.refl _
  | k :: ks, f, g, h => by
    simp only [List.flatMap_cons]
    exact (h k (by simp)).append
      (flatMap_perm_of_perm ks f g (fun k' h' => h k' (by simp [h'])))

theorem flatMap_filter_perm {α : Type} (g : α → Nat) :
    ∀ (ks : List Nat), ks.Nodup → ∀ (l : List α), (∀ a ∈ l, g a ∈ ks) →
      (ks.flatMap (fun k => l.filter (fun a => g a == k))).Perm l
  | [], _, l, hcov => by
    have hl : l = [] :=
      List.eq_nil_iff_forall_not_mem.mpr (fun a ha => by simpa using hcov a ha)
    simp [hl]
  | k :: ks, hnd, l, hcov => by
    rw [List.flatMap_cons]
    have hnd' := List.nodup_cons.mp hnd
    have hrw : ks.flatMap (fun k' => l.filter (fun a => g a == k'))
        = ks.flatMap (fun k' =>
            (l.filter (fun a => !(g a == k))).filter (fun a => g a == k')) := by
      apply flatMap_congr_mem
      intro k' hk'
      have hkk : k' ≠ k := fun h => hnd'.1 (h ▸ hk')
      rw [List.filter_filter]
      apply List.filter_congr
      intro a _
      cases hga : g a == k' with
      | false => simp
      | true =>
        have hv : g a = k' := by simpa using hga
        simp [hv, hkk]
    rw [hrw]
    have hcov' : ∀ a ∈ l.filter (fun a => !(g a == k)), g a ∈ ks := by
      intro a ha
      have hmem := List.mem_of_mem_filter ha
      have hfa := List.of_mem_filter ha
      simp only [Bool.not_eq_true'] at hfa
      rcases List.mem_cons.mp (hcov a hmem) with h | h
      · exact absurd (by simpa using h) (by simpa using hfa)
      · exact h
    have ih := flatMap_filter_perm g ks hnd'.2
      (l.filter (fun a => !(g a == k))) hcov'
    exact (ih.append_left _).trans (List.filter_append_perm _ l)

theorem pairwise_of_mem_all {α : Type} {R : α → α → Prop} :
    ∀ {l : List α}, (∀ a ∈ l, ∀ b ∈ l, R a b) → l.Pairwise R
  | [], _ => List.Pairwise.nil
  | a :: l, h =>
    List.Pairwise.cons (fun b hb => h a (by simp) b (by simp [hb]))
      (pairwise_of_mem_all (fun x hx y hy => h x (by simp [hx]) y (by simp [hy])))

theorem pairwise_flatMap_buckets :
    ∀ (ks : List Nat) (F : Nat → List FieldDef),
      (∀ k, ∀ f ∈ F k, SizeOf f.value.type.base_type = k) →
      ks.Pairwise (fun a b => b ≤ a) →
      (ks.flatMap F).Pairwise (fun a b =>
        SizeOf b.value.type.base_type ≤ SizeOf a.value.type.base_type)
  | [], _, _, _ => by simp
  | k :: ks, F, hmem, hks => by
    rw [List.flatMap_cons]
    refine List.pairwise_append.mpr ⟨?_, ?_, ?_⟩
    · exact pairwise_of_mem_all (fun a ha b hb => by
        rw [hmem k a ha, hmem k b hb])
    · exact pairwise_flatMap_buckets ks F hmem (List.pairwise_cons.mp hks).2
    · intro a ha b hb
      obtain ⟨k', hk', hbk'⟩ := List.mem_flatMap.mp hb
      rw [hmem k a ha, hmem k' b hbk']
      exact (List.pairwise_cons.mp hks).1 k' hk'

/-- C1 (amended): the convenience constructor issues exactly one
builder add call per non-deprecated field (the call list is a
permutation of the non-deprecated field list); when `sortbysize` is
unset the calls occur in **reverse** field declaration order, and when
`sortbysize` is set the calls occur in descending field-size order with
ties in **reverse** relative declaration order (for declared field
sizes [1,4,2,8] the call order is [8,4,2,1]). -/
theorem create_call_order (s : StructDef) :
    (createCallFields s).Perm (nondeprecatedFields s)
  ∧ (s.sortbysize = false →
      createCallFields s = (nondeprecatedFields s).reverse)
  ∧ (s.sortbysize = true →
      createCallFields s =
        [8, 4, 2, 1].flatMap (fun sz =>
          ((nondeprecatedFields s).filter
            (fun f => sz == SizeOf f.value.type.base_type)).reverse)
      ∧ (createCallFields s).Pairwise (fun a b =>
          SizeOf b.value.type.base_type ≤ SizeOf a.value.type.base_type)) := by
  cases hs : s.sortbysize with
  | false =>
    have h1 : createCallFields s = (nondeprecatedFields s).reverse := by
      unfold createCallFields
      simp only [hs, Bool.not_false, Bool.true_or, Bool.and_true]
      rw [if_neg (by decide), halvingSizes_one]
      simp only [List.flatMap_cons, List.flatMap_nil, List.append_nil]
      rw [List.filter_reverse]
      rfl
    refine ⟨?_, fun _ => h1, fun h => absurd h (by decide)⟩
    rw [h1]
    exact (nondeprecatedFields s).reverse_perm
  | true =>
    have hbuck : createCallFields s =
        [8, 4, 2, 1].flatMap (fun sz =>
          ((nondeprecatedFields s).filter
            (fun f => sz == SizeOf f.value.type.base_type)).reverse) := by
      unfold createCallFields
      simp only [hs, Bool.not_true, Bool.false_or]
      rw [if_pos trivial, show largest_scalar_size = 8 from rfl,
        halvingSizes_eight]
      apply flatMap_congr_mem
      intro sz _
      rw [List.filter_reverse]
      congr 1
      unfold nondeprecatedFields
      rw [List.filter_filter]
      apply List.filter_congr
      intro f _
      rw [Bool.and_comm]
    have hperm : (createCallFields s).Perm (nondeprecatedFields s) := by
      rw [hbuck]
      refine (flatMap_perm_of_perm _ _
        (fun sz => (nondeprecatedFields s).filter
          (fun f => sz == SizeOf f.value.type.base_type))
        (fun sz _ => (List.reverse_perm _))).trans ?_
      have horient : [8, 4, 2, 1].flatMap (fun sz =>
            (nondeprecatedFields s).filter
              (fun f => sz == SizeOf f.value.type.base_type))
          = [8, 4, 2, 1].flatMap (fun sz =>
            (nondeprecatedFields s).filter
              (fun f => SizeOf f.value.type.base_type == sz)) := by
        apply flatMap_congr_mem
        intro sz _
        apply List.filter_congr
        intro f _
        rw [beq_comm_nat]
      rw [horient]
      exact flatMap_filter_perm (fun f => SizeOf f.value.type.base_type)
        [8, 4, 2, 1] (by decide) (nondeprecatedFields s)
        (fun f _ => SizeOf_mem_sizes _)
    refine ⟨hperm, fun h => absurd h (by decide), fun _ => ⟨hbuck, ?_⟩⟩
    rw [hbuck]
    apply pairwise_flatMap_buckets
    · intro k f hf
      have hkf := List.of_mem_filter (List.mem_reverse.mp hf)
      have h2 : k = SizeOf f.value.type.base_type := by simpa using hkf
      exact h2.symm
    · decide

/-- A two-field table with `sortbysize` unset. -/
def TwoFieldTable : StructDef :=
  ⟨"Two",
   [⟨"a", ⟨⟨BaseType.SHORT, BaseType.NONE, "", false⟩, "0", 4⟩, false, 0, ""⟩,
    ⟨"b", ⟨⟨BaseType.INT, BaseType.NONE, "", false⟩, "0", 6⟩, false, 0, ""⟩],
   false, false, false, 1, 0, ""⟩

/-- C1 counterexample: with `sortbysize` unset on the concrete
two-field table, the add calls do **not** occur in field declaration
order — the creator loop iterates the field vector with
`rbegin()`/`rend()`, so the call list is the reverse of the
declaration-order non-deprecated field list. -/
theorem create_call_order_counterexample :
    createCallFields TwoFieldTable ≠ nondeprecatedFields TwoFieldTable := by
  have hc : createCallFields TwoFieldTable =
      [1].flatMap (fun size => TwoFieldTable.fields.reverse.filter
        (fun f => !f.deprecated &&
          (!TwoFieldTable.sortbysize ||
            size == SizeOf f.value.type.base_type))) := by
    unfold createCallFields
    rw [show (if TwoFieldTable.sortbysize then largest_scalar_size else 1) = 1
      from rfl, halvingSizes_one]
  rw [hc]
  decide

/-- A four-field table with field sizes [1,4,2,8] in declaration order
and `sortbysize` set. -/
def SortTable : StructDef :=
  ⟨"Sort",
   [⟨"a", ⟨⟨BaseType.CHAR, BaseType.NONE, "", false⟩, "0", 4⟩, false, 0, ""⟩,
    ⟨"b", ⟨⟨BaseType.INT, BaseType.NONE, "", false⟩, "0", 6⟩, false, 0, ""⟩,
    ⟨"c", ⟨⟨BaseType.SHORT, BaseType.NONE, "", false⟩, "0", 8⟩, false, 0, ""⟩,
    ⟨"d", ⟨⟨BaseType.LONG, BaseType.NONE, "", false⟩, "0", 10⟩, false, 0, ""⟩],
   false, false, true, 1, 0, ""⟩

/-- C1 witness: for declared field sizes [1,4,2,8] under `sortbysize`,
the add calls occur in size order [8,4,2,1], descending. -/
theorem create_call_order_witness :
    (createCallFields SortTable).map (fun f => SizeOf f.value.type.base_type)
      = [8, 4, 2, 1]
  ∧ (createCallFields SortTable).Pairwise (fun a b =>
      SizeOf b.value.type.base_type ≤ SizeOf a.value.type.base_type) := by
  have h := (create_call_order SortTable).2.2 rfl
  refine ⟨?_, h.2⟩
  rw [h.1]
  decide

end Flatbuffers
